import Mathlib

/-!
Shallow embedding of the UMDP3 compliance checker
(`script_umdp3_checker/python/umdp3.py`).

A source line is modelled as a list of characters.  Each rule is a function
from the list of lines to a pair: its failure count together with the list
of keys passed to `add_extra_error`, in call order (the Python code always
uses the default `value=""`, so a record is just its key).  The diagnostic
store is an insertion-ordered association list mirroring a Python dict.

The regular expressions of the source are hand-compiled to executable
matchers over `List Char`, following Python `re` semantics (leftmost match,
greedy quantifiers with backtracking where it can matter, `.` not matching
a newline, `$` at the end of the string or before a final newline).
-/

namespace UMDP3

abbrev Line := List Char

/-- Python `\s` on ASCII input: space, tab, newline, carriage return,
vertical tab and form feed. -/
def isSpaceC (c : Char) : Bool :=
  c == ' ' || c == '\t' || c == '\n' || c == '\r' || c == '\x0b' || c == '\x0c'

/-- Python `\d` on ASCII input. -/
def isDigitC (c : Char) : Bool :=
  '0' ≤ c && c ≤ '9'

def isUpperA (c : Char) : Bool :=
  'A' ≤ c && c ≤ 'Z'

def isLowerA (c : Char) : Bool :=
  'a' ≤ c && c ≤ 'z'

/-- Python `\w` on ASCII input. -/
def isWordC (c : Char) : Bool :=
  isUpperA c || isLowerA c || isDigitC c || c == '_'

/-- Python `str.upper()` on ASCII input. -/
def upperL (l : Line) : Line := l.map Char.toUpper

/-- Python `str.lower()` on ASCII input. -/
def lowerL (l : Line) : Line := l.map Char.toLower

/-- Python `str.strip()`. -/
def stripWs (s : Line) : Line :=
  ((s.dropWhile isSpaceC).reverse.dropWhile isSpaceC).reverse

/-- Python `str.rstrip()`. -/
def rstripWs (s : Line) : Line :=
  (s.reverse.dropWhile isSpaceC).reverse

/-- Does `s` start with `pat` (case-sensitive)? -/
def startsWithL : Line → Line → Bool
  | [], _ => true
  | _ :: _, [] => false
  | p :: ps, c :: cs => p == c && startsWithL ps cs

/-- Does `s` start with `pat`, compared case-insensitively (`re.IGNORECASE`)? -/
def startsCI : Line → Line → Bool
  | [], _ => true
  | _ :: _, [] => false
  | p :: ps, c :: cs => Char.toLower p == Char.toLower c && startsCI ps cs

/-- Python `pat in s`: `pat` occurs as a contiguous substring of `s`. -/
def isSub (pat : Line) : Line → Bool
  | [] => startsWithL pat []
  | c :: t => startsWithL pat (c :: t) || isSub pat t

/-- Unanchored `re.search`: does the predicate hold at some start position? -/
def scanP (p : Line → Bool) (s : Line) : Bool :=
  s.tails.any p

/-- Word boundary `\b` on the left of a match position: the preceding
character (if any) is not a word character. -/
def noWordBefore : Option Char → Bool
  | none => true
  | some c => !isWordC c

/-- Word boundary `\b` on the right of a match: the following character
(if any) is not a word character. -/
def noWordAfter : Line → Bool
  | [] => true
  | c :: _ => !isWordC c

/-- Search for a match whose pattern begins with `\b` followed by a word
character: tries every position whose predecessor is not a word character. -/
def scanBAux (p : Line → Bool) : Option Char → Line → Bool
  | prev, [] => noWordBefore prev && p []
  | prev, c :: t => (noWordBefore prev && p (c :: t)) || scanBAux p (some c) t

def scanB (p : Line → Bool) (s : Line) : Bool :=
  scanBAux p none s

/-- Leftmost-match search with a captured group, for patterns beginning
with `\b` followed by a word character. -/
def scanBOptAux (f : Line → Option Line) : Option Char → Line → Option Line
  | prev, [] => if noWordBefore prev then f [] else none
  | prev, c :: t =>
    match (if noWordBefore prev then f (c :: t) else none) with
    | some r => some r
    | none => scanBOptAux f (some c) t

def scanBOpt (f : Line → Option Line) (s : Line) : Option Line :=
  scanBOptAux f none s

/-- Continuation after `.*`: the rest of the pattern may start at any
position reachable without crossing a newline (`.` does not match `\n`). -/
def dotStar (p : Line → Bool) (s : Line) : Bool :=
  (s.tails.take ((s.takeWhile (fun c => !(c == '\n'))).length + 1)).any p

/-- Continuation after `\s*.*`: `\s*` may cross newlines, `.*` may not, so
the rest of the pattern may start anywhere in the whitespace prefix or in
the newline-free run that follows it. -/
def wsDotStar (p : Line → Bool) (s : Line) : Bool :=
  let k := (s.takeWhile isSpaceC).length
  let m := ((s.dropWhile isSpaceC).takeWhile (fun c => !(c == '\n'))).length
  (s.tails.take (k + m + 1)).any p

/-- Word-bounded case-sensitive search `\bWORD\b` for a literal made of
word characters. -/
def wordCS (w : Line) (s : Line) : Bool :=
  scanB (fun t => startsWithL w t && noWordAfter (t.drop w.length)) s

/-- Word-bounded case-insensitive search `\bWORD\b` for a literal made of
word characters. -/
def wordCI (w : Line) (s : Line) : Bool :=
  scanB (fun t => startsCI w t && noWordAfter (t.drop w.length)) s

/-- Matcher step for `\s*C`: skip whitespace greedily, then consume the
(non-whitespace) literal character `C`. -/
def eatWsChar (c : Char) (s : Line) : Option Line :=
  match s.dropWhile isSpaceC with
  | d :: t => if d == c then some t else none
  | [] => none

/-- Matcher step for a literal followed by a continuation. -/
def litThen (lit : Line) (k : Line → Bool) (s : Line) : Bool :=
  startsWithL lit s && k (s.drop lit.length)

/-- Helper for `re.findall(r'\b\w+\b', s)`: the maximal runs of word
characters, in order.  `cur` carries the current run, reversed. -/
def tokGo (cur : Line) : Line → List Line
  | [] => if cur.isEmpty then [] else [cur.reverse]
  | c :: t =>
    if isWordC c then tokGo (c :: cur) t
    else if cur.isEmpty then tokGo [] t
    else cur.reverse :: tokGo [] t

def tokenize (s : Line) : List Line :=
  tokGo [] s

/-- One pass of `re.sub(r'q[^q]*q', '', s)` for a quote character `q`:
delete every pair of like quotes together with the text between them; an
unmatched final quote is kept.  The fuel argument only bounds the
recursion; `fuel ≥ s.length` makes it total on `s`. -/
def stripQuoteF (q : Char) : Nat → Line → Line
  | 0, s => s
  | _ + 1, [] => []
  | fuel + 1, c :: t =>
    if c == q then
      match t.dropWhile (fun d => !(d == q)) with
      | [] => c :: t
      | _ :: r => stripQuoteF q fuel r
    else c :: stripQuoteF q fuel t

/-- `UMDP3.remove_quoted`: strip double-quoted strings, then single-quoted
strings. -/
def remove_quoted (s : Line) : Line :=
  let r := stripQuoteF '"' s.length s
  stripQuoteF '\'' r.length r

/-- Truncate at the first `!`. -/
def truncAtBang (q : Line) : Line :=
  q.takeWhile (fun c => !(c == '!'))

/-- `re.sub(r'!.*$', '', s)`: `.` does not cross a newline and `$` matches
at the end or just before a final newline, so the substitution truncates
the final newline-free segment of `s` at its first `!`, preserving a
trailing newline. -/
def stripComment (s : Line) : Line :=
  let r := s.reverse
  let hasNl := r.head? == some '\n'
  let sfx : Line := if hasNl then ['\n'] else []
  let r' := if hasNl then r.tail else r
  let qRev := r'.takeWhile (fun c => !(c == '\n'))
  let pRev := r'.dropWhile (fun c => !(c == '\n'))
  pRev.reverse ++ truncAtBang qRev.reverse ++ sfx

/-- The normalization most Fortran rules apply to a line before matching:
strip quoted strings, then strip the trailing `!` comment. -/
def cleanLine (l : Line) : Line :=
  stripComment (remove_quoted l)

/-- Python `'\n'.join(lines)`. -/
def joinLines : List Line → Line
  | [] => []
  | [l] => l
  | l :: l' :: ls => l ++ '\n' :: joinLines (l' :: ls)

/-! ### Catalog constants (`UMDP3.__init__`) -/

/-- The Fortran keyword set of `UMDP3.__init__` (`self.fortran_keywords`). -/
def fortran_keywords : List Line :=
  (["ABORT", "ABS", "ABSTRACT", "ACCESS", "ACHAR", "ACOS", "ACOSD", "ACOSH",
    "ACTION", "ADJUSTL", "ADJUSTR", "ADVANCE", "AIMAG", "AINT", "ALARM", "ALGAMA",
    "ALL", "ALLOCATABLE", "ALLOCATE", "ALLOCATED", "ALOG", "ALOG10", "AMAX0", "AMAX1",
    "AMIN0", "AMIN1", "AMOD", "AND", "ANINT", "ANY", "ASIN", "ASIND", "ASINH",
    "ASSIGN", "ASSIGNMENT", "ASSOCIATE", "ASSOCIATED", "ASYNCHRONOUS", "ATAN", "ATAN2",
    "ATAN2D", "ATAND", "ATANH", "ATOMIC_ADD", "ATOMIC_AND", "ATOMIC_CAS", "ATOMIC_DEFINE",
    "ATOMIC_FETCH_ADD", "ATOMIC_FETCH_AND", "ATOMIC_FETCH_OR", "ATOMIC_FETCH_XOR",
    "ATOMIC_INT_KIND", "ATOMIC_LOGICAL_KIND", "ATOMIC_OR", "ATOMIC_REF", "ATOMIC_XOR",
    "BACKSPACE", "BACKTRACE", "BESJ0", "BESJ1", "BESJN", "BESSEL_J0", "BESSEL_J1",
    "BESSEL_JN", "BESSEL_Y0", "BESSEL_Y1", "BESSEL_YN", "BESY0", "BESY1", "BESYN",
    "BGE", "BGT", "BIND", "BIT_SIZE", "BLANK", "BLE", "BLOCK", "BLT", "BTEST",
    "CABS", "CALL", "CASE", "CEILING", "CHAR", "CHARACTER", "CLASS", "CLOSE",
    "CMPLX", "CODIMENSION", "COMMAND_ARGUMENT_COUNT", "COMMON", "COMPILER_OPTIONS",
    "COMPILER_VERSION", "COMPLEX", "CONJG", "CONTAINS", "CONTINUE", "COS", "COSD",
    "COSH", "COUNT", "CPU_TIME", "CSHIFT", "CYCLE", "DATA", "DATE_AND_TIME",
    "DBLE", "DEALLOCATE", "DEFAULT", "DELIM", "DIMENSION", "DIMAG", "DIRECT",
    "DO", "DOT_PRODUCT", "DOUBLE", "DPROD", "DREAL", "DTIME", "ELEMENTAL",
    "ELSE", "ELSEIF", "ELSEWHERE", "END", "ENDDO", "ENDFILE", "ENDIF", "ENTRY",
    "ENUM", "ENUMERATOR", "EOSHIFT", "EPSILON", "ERROR", "ETIME", "EXECUTE_COMMAND_LINE",
    "EXIT", "EXP", "EXPONENT", "EXTENDS", "EXTERNAL", "EXTRACT", "FALSE", "FILE",
    "FINAL", "FLOAT", "FLOOR", "FLUSH", "FMT", "FORALL", "FORMAT", "FORMATTED",
    "FRACTION", "FUNCTION", "GAMMA", "GENERIC", "GET_COMMAND", "GET_COMMAND_ARGUMENT",
    "GET_ENVIRONMENT_VARIABLE", "GOTO", "HUGE", "IACHAR", "IAND", "IARG", "IBCLR",
    "IBITS", "IBSET", "ICHAR", "IDATE", "IEOR", "IF", "IFIX", "IMAG", "IMPLICIT",
    "IMPORT", "IN", "INCLUDE", "INDEX", "INOUT", "INQUIRE", "INT", "INTEGER",
    "INTENT", "INTERFACE", "INTRINSIC", "IOR", "IOSTAT", "ISHFT", "ISHFTC",
    "IS_IOSTAT_END", "IS_IOSTAT_EOR", "ITIME", "KIND", "LBOUND", "LEADZ",
    "LEN", "LEN_TRIM", "LGE", "LGT", "LLE", "LLT", "LOG", "LOG10", "LOGICAL",
    "MATMUL", "MAX", "MAXEXPONENT", "MAXLOC", "MAXVAL", "MERGE", "MIN",
    "MINEXPONENT", "MINLOC", "MINVAL", "MOD", "MODULE", "MODULO", "MOVE_ALLOC",
    "MVBITS", "NAMELIST", "NEAREST", "NEW_LINE", "NINT", "NON_INTRINSIC",
    "NON_OVERRIDABLE", "NOPASS", "NOT", "NULL", "NULLIFY", "NUMERIC_STORAGE_SIZE",
    "ONLY", "OPEN", "OPERATOR", "OPTIONAL", "OR", "OUT", "PACK", "PARAMETER",
    "PASS", "PAUSE", "POINTER", "POPPAR", "POPCNT", "PRECISION", "PRESENT",
    "PRINT", "PRIVATE", "PROCEDURE", "PRODUCT", "PROGRAM", "PROTECTED", "PUBLIC",
    "PURE", "PUSHPAR", "RADIX", "RANDOM_NUMBER", "RANDOM_SEED", "RANGE", "READ",
    "REAL", "RECURSIVE", "REPEAT", "RESHAPE", "RESULT", "RETURN", "REWIND",
    "RRSPACING", "SAME_TYPE_AS", "SAVE", "SCALE", "SCAN", "SELECT", "SELECTED_CHAR_KIND",
    "SELECTED_INT_KIND", "SELECTED_REAL_KIND", "SEQUENCE", "SET_EXPONENT", "SHAPE",
    "SIGN", "SIN", "SIND", "SINH", "SIZE", "SNGL", "SPACING", "SPREAD", "SQRT",
    "STOP", "STORAGE_SIZE", "SUM", "SUBROUTINE", "SYSTEM_CLOCK", "TAN", "TAND",
    "TANH", "TARGET", "THEN", "TIME", "TINY", "TRANSFER", "TRANSPOSE", "TRIM",
    "TRUE", "TYPE", "UBOUND", "UNFORMATTED", "UNPACK", "USE", "VALUE", "VERIFY",
    "VOLATILE", "WHERE", "WHILE", "WRITE"]).map String.data

/-- Obsolescent Fortran intrinsics (`self.obsolescent_intrinsics`), in the
order written in the source (Python iterates the set in an unspecified
order; the failure count does not depend on it). -/
def obsolescent_intrinsics : List Line :=
  (["ALOG", "ALOG10", "AMAX0", "AMAX1", "AMIN0", "AMIN1", "AMOD", "CABS",
    "DABS", "DACOS", "DASIN", "DATAN", "DATAN2", "DCOS", "DCOSH", "DDIM",
    "DEXP", "DINT", "DLOG", "DLOG10", "DMAX1", "DMIN1", "DMOD", "DNINT",
    "DPROD", "DREAL", "DSIGN", "DSIN", "DSINH", "DSQRT", "DTAN", "DTANH",
    "FLOAT", "IABS", "IDIM", "IDINT", "IDNINT", "IFIX", "ISIGN", "MAX0",
    "MAX1", "MIN0", "MIN1", "SNGL"]).map String.data

/-- Deprecated C identifiers (`self.deprecated_c_identifiers`). -/
def deprecated_c_identifiers : List Line :=
  (["gets", "tmpnam", "tempnam", "mktemp"]).map String.data

/-! ### Diagnostic store (`_extra_error_info` dict plus `add_extra_error`,
`get_extra_error_information`, `reset_extra_error_information`) -/

abbrev Store := List (Line × Line)

/-- Python dict assignment `d[k] = v`: replace in place, or append. -/
def upsert (s : Store) (k v : Line) : Store :=
  match s with
  | [] => [(k, v)]
  | (k', v') :: t => if k' = k then (k, v) :: t else (k', v') :: upsert t k v

/-- Python dict lookup `d.get(k)`. -/
def lookupS : Store → Line → Option Line
  | [], _ => none
  | (k, v) :: t, q => if k = q then some v else lookupS t q

/-- Replay a rule invocation's `add_extra_error` calls against the store;
every call uses the default `value=""`. -/
def applyRecs (recs : List Line) (s : Store) : Store :=
  recs.foldl (fun st k => upsert st k []) s

/-! ### Rule catalog -/

/-- Shape of the per-line rules: the loop body yields each line's failure
contribution and record keys, and the rule sums and concatenates them in
line order. -/
def perLineRule (f : Line → Nat × List Line) (lines : List Line) : Nat × List Line :=
  ((lines.map (fun l => (f l).1)).sum, (lines.map (fun l => (f l).2)).flatten)

/-- `UMDP3.capitalised_keywords`: tokenize the uppercased cleaned line,
and for every token in the keyword set, flag it when the lowercased token
occurs word-bounded in the lowercased cleaned line. -/
def capitalised_keywords : List Line → Nat × List Line :=
  perLineRule (fun line =>
    let clean := cleanLine line
    let words := tokenize (upperL clean)
    let hits := words.filter (fun w =>
      fortran_keywords.contains (upperL w) && wordCS (lowerL w) (lowerL clean))
    (hits.length, hits.map (fun w => "lowercase keyword: ".data ++ lowerL w)))

/-- Regex `^\s+!\$OMP`. -/
def matchSentinel (l : Line) : Bool :=
  !(l.takeWhile isSpaceC).isEmpty && startsWithL "!$OMP".data (l.dropWhile isSpaceC)

def openmp_sentinels_in_column_one : List Line → Nat × List Line :=
  perLineRule (fun line =>
    if matchSentinel line then (1, ["OpenMP sentinel not in column 1".data]) else (0, []))

def unseparatedPatterns : List Line :=
  (["ELSEIF", "ENDDO", "ENDIF", "ENDTYPE",
    "ENDMODULE", "ENDFUNCTION", "ENDSUBROUTINE"]).map String.data

/-- `UMDP3.unseparated_keywords`: one failure per matching pattern on the
quote-stripped line. -/
def unseparated_keywords : List Line → Nat × List Line :=
  perLineRule (fun line =>
    let clean := remove_quoted line
    let hits := unseparatedPatterns.filter (fun p => wordCI p clean)
    (hits.length, hits.map (fun _ => "unseparated keyword in line: ".data ++ stripWs line)))

/-- Attempt of `\bGO\s*TO\s+(\d+)` (IGNORECASE) at one position, returning
the captured digit group. -/
def goToCapture (t : Line) : Option Line :=
  if startsCI "GO".data t then
    let r1 := (t.drop 2).dropWhile isSpaceC
    if startsCI "TO".data r1 then
      let r2 := r1.drop 2
      let w := r2.takeWhile isSpaceC
      let d := (r2.dropWhile isSpaceC).takeWhile isDigitC
      if !w.isEmpty && !d.isEmpty then some d else none
    else none
  else none

def go_to_other_than_9999 : List Line → Nat × List Line :=
  perLineRule (fun line =>
    let clean := cleanLine line
    match scanBOpt goToCapture clean with
    | some label =>
      if label = "9999".data then (0, []) else (1, ["GO TO ".data ++ label])
    | none => (0, []))

/-- Attempt of `\bWRITE\s*\(\s*\*\s*,\s*\*\s*\)` (IGNORECASE) at one
position. -/
def matchWriteStar (t : Line) : Bool :=
  (if startsCI "WRITE".data t then
    (((((eatWsChar '(' (t.drop 5)).bind (eatWsChar '*')).bind
      (eatWsChar ',')).bind (eatWsChar '*')).bind (eatWsChar ')'))
  else none).isSome

def write_using_default_format : List Line → Nat × List Line :=
  perLineRule (fun line =>
    if scanB matchWriteStar (cleanLine line) then (1, ["WRITE(*,*) found".data]) else (0, []))

def typeKeywords5 : List Line :=
  (["INTEGER", "REAL", "LOGICAL", "CHARACTER", "TYPE"]).map String.data

/-- Tail of `^\s*(INTEGER|...)\s*.*::\s*[A-Z_]+` after the `.*`: the
literal `::`, then (IGNORECASE makes `[A-Z_]` match any letter) at least
one letter or underscore after optional whitespace. -/
def colonsThenLetter (t : Line) : Bool :=
  startsWithL "::".data t &&
    (match ((t.drop 2).dropWhile isSpaceC).head? with
     | some c => isUpperA c || isLowerA c || c == '_'
     | none => false)

/-- Regex `^\s*(INTEGER|REAL|LOGICAL|CHARACTER|TYPE)\s*.*::\s*[A-Z_]+`
with IGNORECASE. -/
def matchTypeDeclUpper (s : Line) : Bool :=
  let r := s.dropWhile isSpaceC
  typeKeywords5.any (fun kw => startsCI kw r && wsDotStar colonsThenLetter (r.drop kw.length))

/-- Regex `[A-Z]{2,}` (case-sensitive search). -/
def hasTwoUppercase (s : Line) : Bool :=
  s.tails.any (fun t =>
    match t with
    | a :: b :: _ => isUpperA a && isUpperA b
    | _ => false)

def lowercase_variable_names : List Line → Nat × List Line :=
  perLineRule (fun line =>
    let clean := cleanLine line
    if matchTypeDeclUpper clean then
      if hasTwoUppercase clean then (1, ["UPPERCASE variable name".data]) else (0, [])
    else (0, []))

def dimension_forbidden : List Line → Nat × List Line :=
  perLineRule (fun line =>
    if wordCI "DIMENSION".data (cleanLine line) then
      (1, ["DIMENSION attribute used".data]) else (0, []))

def ampersand_continuation : List Line → Nat × List Line :=
  perLineRule (fun line =>
    if (line.dropWhile isSpaceC).head? == some '&' then
      (1, ["continuation line starts with &".data]) else (0, []))

def forbidden_keywords : List Line → Nat × List Line :=
  perLineRule (fun line =>
    let clean := cleanLine line
    if wordCI "EQUIVALENCE".data clean || wordCI "PAUSE".data clean then
      (1, ["forbidden keyword".data]) else (0, []))

def oldOperators : List Line :=
  ([".GT.", ".GE.", ".LT.", ".LE.", ".EQ.", ".NE."]).map String.data

/-- `UMDP3.forbidden_operators`: plain substring test against the
uppercased cleaned line, one failure per listed operator found. -/
def forbidden_operators : List Line → Nat × List Line :=
  perLineRule (fun line =>
    let clean := cleanLine line
    let hits := oldOperators.filter (fun op => isSub op (upperL clean))
    (hits.length, hits.map (fun op => "old operator ".data ++ op)))

def line_over_80chars : List Line → Nat × List Line :=
  perLineRule (fun line =>
    if decide ((rstripWs line).length > 80) then (1, ["line too long".data]) else (0, []))

def tab_detection : List Line → Nat × List Line :=
  perLineRule (fun line =>
    if line.contains '\t' then (1, ["tab character found".data]) else (0, []))

/-- Attempt of `\bUSE\s+NAME\b` (IGNORECASE) at one position, for a module
name made of word characters. -/
def matchUseWord (modname : Line) (t : Line) : Bool :=
  startsCI "USE".data t &&
    (let r := t.drop 3
     !(r.takeWhile isSpaceC).isEmpty &&
       (let r2 := r.dropWhile isSpaceC
        startsCI modname r2 && noWordAfter (r2.drop modname.length)))

def printstatus_mod : List Line → Nat × List Line :=
  perLineRule (fun line =>
    if scanB (matchUseWord "printstatus_mod".data) line then
      (1, ["printstatus_mod used".data]) else (0, []))

/-- Attempt of `\bPRINT\s*\*` (IGNORECASE) at one position. -/
def matchPrintStar (t : Line) : Bool :=
  startsCI "PRINT".data t && (eatWsChar '*' (t.drop 5)).isSome

def printstar : List Line → Nat × List Line :=
  perLineRule (fun line =>
    if scanB matchPrintStar (cleanLine line) then (1, ["PRINT * used".data]) else (0, []))

/-- Attempt of `\bWRITE\s*\(\s*6\s*,` (IGNORECASE) at one position. -/
def matchWrite6 (t : Line) : Bool :=
  (if startsCI "WRITE".data t then
    (((eatWsChar '(' (t.drop 5)).bind (eatWsChar '6')).bind (eatWsChar ','))
  else none).isSome

def write6 : List Line → Nat × List Line :=
  perLineRule (fun line =>
    if scanB matchWrite6 (cleanLine line) then (1, ["WRITE(6) used".data]) else (0, []))

def um_fort_flush : List Line → Nat × List Line :=
  perLineRule (fun line =>
    if wordCS "um_fort_flush".data line then (1, ["um_fort_flush used".data]) else (0, []))

/-- Regex `\$\w+\$` at one position (no word boundary involved). -/
def matchSvnKeyword (t : Line) : Bool :=
  match t with
  | '$' :: r => !(r.takeWhile isWordC).isEmpty && (r.dropWhile isWordC).head? == some '$'
  | _ => false

def svn_keyword_subst : List Line → Nat × List Line :=
  perLineRule (fun line =>
    if scanP matchSvnKeyword line then (1, ["SVN keyword substitution".data]) else (0, []))

/-- Regex `!\s*OMP\b` (case-sensitive) at one position. -/
def matchBangOmp (t : Line) : Bool :=
  match t with
  | '!' :: r =>
    let r2 := r.dropWhile isSpaceC
    startsWithL "OMP".data r2 && noWordAfter (r2.drop 3)
  | _ => false

def omp_missing_dollar : List Line → Nat × List Line :=
  perLineRule (fun line =>
    if scanP matchBangOmp line && !isSub "!$OMP".data line then
      (1, ["!OMP without $".data]) else (0, []))

/-- Regex `^\s*#\s*if(n)?def\b`. -/
def matchCppIfdef (l : Line) : Bool :=
  match l.dropWhile isSpaceC with
  | '#' :: r =>
    let r2 := r.dropWhile isSpaceC
    (startsWithL "ifndef".data r2 && noWordAfter (r2.drop 6)) ||
      (startsWithL "ifdef".data r2 && noWordAfter (r2.drop 5))
  | _ => false

def cpp_ifdef : List Line → Nat × List Line :=
  perLineRule (fun line =>
    if matchCppIfdef line then (1, ["#ifdef/#ifndef used".data]) else (0, []))

/-- Regex `^\s*#.*!`. -/
def matchCppComment (l : Line) : Bool :=
  match l.dropWhile isSpaceC with
  | '#' :: r => dotStar (fun t => t.head? == some '!') r
  | _ => false

def cpp_comment : List Line → Nat × List Line :=
  perLineRule (fun line =>
    if matchCppComment line then (1, ["Fortran comment in CPP directive".data]) else (0, []))

/-- `UMDP3.obsolescent_fortran_intrinsic`: one failure per listed
intrinsic found word-bounded (IGNORECASE) in the cleaned line. -/
def obsolescent_fortran_intrinsic : List Line → Nat × List Line :=
  perLineRule (fun line =>
    let clean := cleanLine line
    let hits := obsolescent_intrinsics.filter (fun w => wordCI w clean)
    (hits.length, hits.map (fun w => "obsolescent intrinsic: ".data ++ w)))

/-- Attempt of `\bEXIT\s*$` (IGNORECASE) at one position: `$` matches at
the end or before a final newline, and `\n` is whitespace, so the rest of
the line must be all whitespace. -/
def matchExitEnd (t : Line) : Bool :=
  startsCI "EXIT".data t && (t.drop 4).all isSpaceC

def exit_stmt_label : List Line → Nat × List Line :=
  perLineRule (fun line =>
    if scanB matchExitEnd (cleanLine line) then
      (1, ["unlabelled EXIT statement".data]) else (0, []))

def intrinsicModules : List Line :=
  (["ISO_C_BINDING", "ISO_FORTRAN_ENV"]).map String.data

def intrinsic_modules : List Line → Nat × List Line :=
  perLineRule (fun line =>
    let clean := cleanLine line
    let hits := intrinsicModules.filter (fun m =>
      scanB (matchUseWord m) clean && !wordCI "INTRINSIC".data clean)
    (hits.length, hits.map (fun m =>
      "intrinsic module ".data ++ m ++ " without INTRINSIC".data)))

/-- Group `\s*([^,)]+)` after the opening parenthesis of
`\bREAD\s*\(\s*([^,)]+)`: greedy `\s*` first, and when `[^,)]+` then finds
no character, backtracking hands the last whitespace character to the
group (whitespace is not in `[,)]`). -/
def captureFirstArg (inner : Line) : Option Line :=
  let w := inner.takeWhile isSpaceC
  let r := inner.dropWhile isSpaceC
  let g := r.takeWhile (fun c => !(c == ',' || c == ')'))
  if !g.isEmpty then some g
  else
    match w.getLast? with
    | some c => some [c]
    | none => none

/-- Attempt of `\bREAD\s*\(\s*([^,)]+)` (IGNORECASE) at one position. -/
def readCapture (t : Line) : Option Line :=
  if startsCI "READ".data t then
    match (t.drop 4).dropWhile isSpaceC with
    | '(' :: inner => captureFirstArg inner
    | _ => none
  else none

def read_unit_args : List Line → Nat × List Line :=
  perLineRule (fun line =>
    let clean := cleanLine line
    match scanBOpt readCapture clean with
    | some arg =>
      if startsWithL "UNIT=".data (upperL (stripWs arg)) then (0, [])
      else (1, ["READ without explicit UNIT=".data])
    | none => (0, []))

/-- `UMDP3.retire_if_def` is a placeholder that always passes. -/
def retire_if_def : List Line → Nat × List Line :=
  fun _ => (0, [])

/-- Attempt of `\bIMPLICIT\s+NONE\b` (IGNORECASE) at one position. -/
def matchImplicitNone (t : Line) : Bool :=
  startsCI "IMPLICIT".data t &&
    (let r := t.drop 8
     !(r.takeWhile isSpaceC).isEmpty &&
       (let r2 := r.dropWhile isSpaceC
        startsCI "NONE".data r2 && noWordAfter (r2.drop 4)))

/-- `UMDP3.implicit_none`: whole-unit presence rule on the raw lines. -/
def implicit_none (lines : List Line) : Nat × List Line :=
  if lines.any (fun l => scanB matchImplicitNone l) then (0, [])
  else (1, ["missing IMPLICIT NONE".data])

/-- Attempt of `\b(STOP|CALL\s+abort)\b` (IGNORECASE) at one position. -/
def matchStopOrAbort (t : Line) : Bool :=
  (startsCI "STOP".data t && noWordAfter (t.drop 4)) ||
    (startsCI "CALL".data t &&
      (let r := t.drop 4
       !(r.takeWhile isSpaceC).isEmpty &&
         (let r2 := r.dropWhile isSpaceC
          startsCI "abort".data r2 && noWordAfter (r2.drop 5))))

def forbidden_stop : List Line → Nat × List Line :=
  perLineRule (fun line =>
    if scanB matchStopOrAbort (cleanLine line) then
      (1, ["STOP or CALL abort used".data]) else (0, []))

def typeKeywords4 : List Line :=
  (["INTEGER", "REAL", "LOGICAL", "CHARACTER"]).map String.data

def intrinsicNames4 : List Line :=
  (["SIN", "COS", "LOG", "EXP"]).map String.data

/-- Tail `::\s*(SIN|COS|LOG|EXP)\b` (IGNORECASE) of the
`intrinsic_as_variable` regex. -/
def colonsThenIntrinsic (t : Line) : Bool :=
  startsWithL "::".data t &&
    (let r := (t.drop 2).dropWhile isSpaceC
     intrinsicNames4.any (fun w => startsCI w r && noWordAfter (r.drop w.length)))

/-- Regex `^\s*(INTEGER|REAL|LOGICAL|CHARACTER)\s*.*::\s*(SIN|COS|LOG|EXP)\b`
with IGNORECASE, applied to the quote-stripped line. -/
def matchIntrinsicDecl (s : Line) : Bool :=
  let r := s.dropWhile isSpaceC
  typeKeywords4.any (fun kw => startsCI kw r && wsDotStar colonsThenIntrinsic (r.drop kw.length))

def intrinsic_as_variable : List Line → Nat × List Line :=
  perLineRule (fun line =>
    if matchIntrinsicDecl (remove_quoted line) then
      (1, ["intrinsic function used as variable".data]) else (0, []))

/-- `UMDP3.check_crown_copyright`: substring test on the whole joined
unit. -/
def check_crown_copyright (lines : List Line) : Nat × List Line :=
  let fc := joinLines lines
  if isSub "Crown copyright".data fc || isSub "COPYRIGHT".data fc then (0, [])
  else (1, ["missing crown copyright".data])

/-- `UMDP3.check_code_owner` returns 0 on both branches in the source. -/
def check_code_owner (lines : List Line) : Nat × List Line :=
  let fc := joinLines lines
  if isSub "Code Owner:".data fc || isSub "code owner".data (lowerL fc) then (0, [])
  else (0, [])

/-- Regex `\(/.*?\/\)` at one position: `(/`, then `/)` reachable without
crossing a newline. -/
def matchArrayInit (t : Line) : Bool :=
  startsWithL "(/".data t && dotStar (startsWithL "/)".data) (t.drop 2)

def array_init_form : List Line → Nat × List Line :=
  perLineRule (fun line =>
    if scanP matchArrayInit (remove_quoted line) then
      (1, ["old array initialization form (/ /)".data]) else (0, []))

/-- `UMDP3.line_trail_whitespace`: `re.search(r'\s+$', line)` succeeds
exactly when the line is nonempty and its final character is whitespace
(a final newline is itself whitespace matched before the end anchor). -/
def line_trail_whitespace : List Line → Nat × List Line :=
  perLineRule (fun line =>
    match line.getLast? with
    | some c => if isSpaceC c then (1, ["trailing whitespace".data]) else (0, [])
    | none => (0, []))

/-- Regex `%\d+[dioxX]"` at one position. -/
def matchIntFormat (t : Line) : Bool :=
  match t with
  | '%' :: r =>
    !(r.takeWhile isDigitC).isEmpty &&
      (match r.dropWhile isDigitC with
       | c :: '"' :: _ => c == 'd' || c == 'i' || c == 'o' || c == 'x' || c == 'X'
       | _ => false)
  | _ => false

def c_integral_format_specifiers : List Line → Nat × List Line :=
  perLineRule (fun line =>
    if scanP matchIntFormat line then
      (1, ["missing space in format specifier".data]) else (0, []))

/-- `UMDP3.c_deprecated`: one failure per listed identifier found
word-bounded (case-sensitive) in the raw line. -/
def c_deprecated : List Line → Nat × List Line :=
  perLineRule (fun line =>
    let hits := deprecated_c_identifiers.filter (fun w => wordCS w line)
    (hits.length, hits.map (fun w => "deprecated C identifier: ".data ++ w)))

/-- Regex `#\s*if.*_OPENMP` (search). -/
def matchHashIfOpenmp (l : Line) : Bool :=
  scanP (fun t =>
    match t with
    | '#' :: r =>
      let r2 := r.dropWhile isSpaceC
      startsWithL "if".data r2 && dotStar (startsWithL "_OPENMP".data) (r2.drop 2)
    | _ => false) l

def c_openmp_define_pair_thread_utils : List Line → Nat × List Line :=
  perLineRule (fun line =>
    if matchHashIfOpenmp line &&
        !isSub "SHUM_USE_C_OPENMP_VIA_THREAD_UTILS".data line then
      (1, ["_OPENMP without SHUM_USE_C_OPENMP_VIA_THREAD_UTILS".data]) else (0, []))

/-- Regex `_OPENMP.*&&.*SHUM_USE_C_OPENMP_VIA_THREAD_UTILS.*&&` (search). -/
def matchCombine1 (l : Line) : Bool :=
  scanP (litThen "_OPENMP".data (dotStar (litThen "&&".data (dotStar (litThen
    "SHUM_USE_C_OPENMP_VIA_THREAD_UTILS".data
    (dotStar (litThen "&&".data (fun _ => true)))))))) l

/-- Regex `&&.*_OPENMP.*&&.*SHUM_USE_C_OPENMP_VIA_THREAD_UTILS` (search). -/
def matchCombine2 (l : Line) : Bool :=
  scanP (litThen "&&".data (dotStar (litThen "_OPENMP".data (dotStar (litThen
    "&&".data (dotStar (litThen "SHUM_USE_C_OPENMP_VIA_THREAD_UTILS".data
    (fun _ => true)))))))) l

def c_openmp_define_no_combine : List Line → Nat × List Line :=
  perLineRule (fun line =>
    if matchCombine1 line || matchCombine2 line then
      (1, ["OpenMP defines combined with third macro".data]) else (0, []))

/-- Regex `!\s*defined\s*\(\s*_OPENMP\s*\)` at one position. -/
def matchNotDefinedOpenmp (t : Line) : Bool :=
  match t with
  | '!' :: r =>
    let r1 := r.dropWhile isSpaceC
    startsWithL "defined".data r1 &&
      ((eatWsChar '(' (r1.drop 7)).bind (fun u =>
        let u1 := u.dropWhile isSpaceC
        if startsWithL "_OPENMP".data u1 then eatWsChar ')' (u1.drop 7) else none)).isSome
  | _ => false

def c_openmp_define_not : List Line → Nat × List Line :=
  perLineRule (fun line =>
    if scanP matchNotDefinedOpenmp line then
      (1, ["!defined(_OPENMP) used".data]) else (0, []))

/-- Regex `#\s*endif` (search). -/
def matchHashEndif (l : Line) : Bool :=
  scanP (fun t =>
    match t with
    | '#' :: r => startsWithL "endif".data (r.dropWhile isSpaceC)
    | _ => false) l

/-- Regex `#\s*pragma\s+omp` (search). -/
def matchPragmaOmp (l : Line) : Bool :=
  scanP (fun t =>
    match t with
    | '#' :: r =>
      let r2 := r.dropWhile isSpaceC
      startsWithL "pragma".data r2 &&
        (let r3 := r2.drop 6
         !(r3.takeWhile isSpaceC).isEmpty &&
           startsWithL "omp".data (r3.dropWhile isSpaceC))
    | _ => false) l

/-- Regex `#\s*include\s*<omp\.h>` (search). -/
def matchIncludeOmpH (l : Line) : Bool :=
  scanP (fun t =>
    match t with
    | '#' :: r =>
      let r2 := r.dropWhile isSpaceC
      startsWithL "include".data r2 &&
        startsWithL "<omp.h>".data ((r2.drop 7).dropWhile isSpaceC)
    | _ => false) l

/-- Loop of `UMDP3.c_protect_omp_pragma`, threading the
`in_openmp_block` flag through the lines in order. -/
def protectGo : Bool → List Line → Nat × List Line
  | _, [] => (0, [])
  | inBlock, l :: rest =>
    if matchHashIfOpenmp l then protectGo true rest
    else if matchHashEndif l then protectGo false rest
    else if matchPragmaOmp l || matchIncludeOmpH l then
      if inBlock then protectGo inBlock rest
      else
        let (n, r) := protectGo inBlock rest
        (n + 1, "unprotected OMP pragma/include".data :: r)
    else protectGo inBlock rest

def c_protect_omp_pragma (lines : List Line) : Nat × List Line :=
  protectGo false lines

/-- Regex `^\s*#\s*ifdef\b`. -/
def matchCIfdef (l : Line) : Bool :=
  match l.dropWhile isSpaceC with
  | '#' :: r =>
    let r2 := r.dropWhile isSpaceC
    startsWithL "ifdef".data r2 && noWordAfter (r2.drop 5)
  | _ => false

def c_ifdef_defines : List Line → Nat × List Line :=
  perLineRule (fun line =>
    if matchCIfdef line then
      (1, ["#ifdef used instead of #if defined()".data]) else (0, []))

/-- `UMDP3.c_final_newline`: `if lines and not lines[-1].endswith('\n')`,
so the empty unit passes. -/
def c_final_newline (lines : List Line) : Nat × List Line :=
  match lines.getLast? with
  | some l =>
    if l.getLast? == some '\n' then (0, []) else (1, ["missing final newline".data])
  | none => (0, [])

/-! ### Checker facade -/

/-- Enumeration of the rule methods of the `UMDP3` class. -/
inductive RuleId where
  | capitalised_keywords
  | openmp_sentinels_in_column_one
  | unseparated_keywords
  | go_to_other_than_9999
  | write_using_default_format
  | lowercase_variable_names
  | dimension_forbidden
  | ampersand_continuation
  | forbidden_keywords
  | forbidden_operators
  | line_over_80chars
  | tab_detection
  | printstatus_mod
  | printstar
  | write6
  | um_fort_flush
  | svn_keyword_subst
  | omp_missing_dollar
  | cpp_ifdef
  | cpp_comment
  | obsolescent_fortran_intrinsic
  | exit_stmt_label
  | intrinsic_modules
  | read_unit_args
  | retire_if_def
  | implicit_none
  | forbidden_stop
  | intrinsic_as_variable
  | check_crown_copyright
  | check_code_owner
  | array_init_form
  | line_trail_whitespace
  | c_integral_format_specifiers
  | c_deprecated
  | c_openmp_define_pair_thread_utils
  | c_openmp_define_no_combine
  | c_openmp_define_not
  | c_protect_omp_pragma
  | c_ifdef_defines
  | c_final_newline
deriving DecidableEq

/-- Dispatch a rule by name: the failure count it returns together with
the keys it records, in order. -/
def runRule : RuleId → List Line → Nat × List Line
  | .capitalised_keywords => capitalised_keywords
  | .openmp_sentinels_in_column_one => openmp_sentinels_in_column_one
  | .unseparated_keywords => unseparated_keywords
  | .go_to_other_than_9999 => go_to_other_than_9999
  | .write_using_default_format => write_using_default_format
  | .lowercase_variable_names => lowercase_variable_names
  | .dimension_forbidden => dimension_forbidden
  | .ampersand_continuation => ampersand_continuation
  | .forbidden_keywords => forbidden_keywords
  | .forbidden_operators => forbidden_operators
  | .line_over_80chars => line_over_80chars
  | .tab_detection => tab_detection
  | .printstatus_mod => printstatus_mod
  | .printstar => printstar
  | .write6 => write6
  | .um_fort_flush => um_fort_flush
  | .svn_keyword_subst => svn_keyword_subst
  | .omp_missing_dollar => omp_missing_dollar
  | .cpp_ifdef => cpp_ifdef
  | .cpp_comment => cpp_comment
  | .obsolescent_fortran_intrinsic => obsolescent_fortran_intrinsic
  | .exit_stmt_label => exit_stmt_label
  | .intrinsic_modules => intrinsic_modules
  | .read_unit_args => read_unit_args
  | .retire_if_def => retire_if_def
  | .implicit_none => implicit_none
  | .forbidden_stop => forbidden_stop
  | .intrinsic_as_variable => intrinsic_as_variable
  | .check_crown_copyright => check_crown_copyright
  | .check_code_owner => check_code_owner
  | .array_init_form => array_init_form
  | .line_trail_whitespace => line_trail_whitespace
  | .c_integral_format_specifiers => c_integral_format_specifiers
  | .c_deprecated => c_deprecated
  | .c_openmp_define_pair_thread_utils => c_openmp_define_pair_thread_utils
  | .c_openmp_define_no_combine => c_openmp_define_no_combine
  | .c_openmp_define_not => c_openmp_define_not
  | .c_protect_omp_pragma => c_protect_omp_pragma
  | .c_ifdef_defines => c_ifdef_defines
  | .c_final_newline => c_final_newline

/-- The failure count a rule returns. -/
def ruleCount (id : RuleId) (lines : List Line) : Nat :=
  (runRule id lines).1

/-- Calling one rule on a facade whose diagnostic store is `s`: the
returned failure count, and the store after the rule's
`add_extra_error` calls. -/
def callRule (id : RuleId) (lines : List Line) (s : Store) : Nat × Store :=
  ((runRule id lines).1, applyRecs (runRule id lines).2 s)

/-! ### Supporting lemmas -/

theorem any_perm {α : Type} {l1 l2 : List α} (f : α → Bool) (hp : l1.Perm l2) :
    l1.any f = l2.any f := by
  cases h1 : l1.any f with
  | true =>
    rw [List.any_eq_true] at h1
    obtain ⟨x, hx, hfx⟩ := h1
    exact (List.any_eq_true.mpr ⟨x, hp.mem_iff.mp hx, hfx⟩).symm
  | false =>
    cases h2 : l2.any f with
    | false => rfl
    | true =>
      rw [List.any_eq_true] at h2
      obtain ⟨x, hx, hfx⟩ := h2
      rw [List.any_eq_false] at h1
      exact absurd hfx (h1 x (hp.mem_iff.mpr hx))

theorem perLineRule_perm {l1 l2 : List Line} (f : Line → Nat × List Line)
    (hp : l1.Perm l2) : (perLineRule f l1).1 = (perLineRule f l2).1 :=
  List.Perm.sum_eq (hp.map (fun l => (f l).1))

theorem lookup_upsert (s : Store) (k v q : Line) :
    lookupS (upsert s k v) q = if k = q then some v else lookupS s q := by
  induction s with
  | nil => rfl
  | cons h t ih =>
    obtain ⟨k', v'⟩ := h
    by_cases hk : k' = k
    · subst hk
      simp only [upsert, if_pos rfl, lookupS]
      by_cases hq : k' = q <;> simp [hq]
    · simp only [upsert, if_neg hk, lookupS, ih]
      by_cases hq : k' = q
      · subst hq
        have : ¬ k = k' := fun h => hk h.symm
        simp [this]
      · simp [hq]

theorem lookup_applyRecs (recs : List Line) (s : Store) (q : Line) :
    lookupS (applyRecs recs s) q = if q ∈ recs then some [] else lookupS s q := by
  induction recs generalizing s with
  | nil => simp [applyRecs]
  | cons k rs ih =>
    show lookupS (applyRecs rs (upsert s k [])) q = _
    rw [ih, lookup_upsert]
    by_cases h1 : q ∈ rs
    · simp [h1]
    · by_cases h2 : k = q
      · subst h2
        simp [h1]
      · have : ¬ q ∈ k :: rs := by
          intro hq
          rcases List.mem_cons.mp hq with h | h
          · exact h2 h.symm
          · exact h1 h
        simp [h1, h2, this]

theorem startsWithL_iff (p s : Line) : startsWithL p s = true ↔ ∃ r, s = p ++ r := by
  induction p generalizing s with
  | nil => simp [startsWithL]
  | cons c cs ih =>
    cases s with
    | nil =>
      simp only [startsWithL, List.cons_append]
      constructor
      · intro h
        exact absurd h (by simp)
      · rintro ⟨r, hr⟩
        exact absurd hr (by simp)
    | cons d ds =>
      simp only [startsWithL, Bool.and_eq_true, beq_iff_eq, ih, List.cons_append]
      constructor
      · rintro ⟨rfl, r, rfl⟩
        exact ⟨r, rfl⟩
      · rintro ⟨r, hr⟩
        injection hr with h1 h2
        exact ⟨h1.symm, r, h2⟩

theorem startsWithL_append {p a : Line} (b : Line) (h : startsWithL p a = true) :
    startsWithL p (a ++ b) = true := by
  obtain ⟨r, rfl⟩ := (startsWithL_iff p a).mp h
  exact (startsWithL_iff p _).mpr ⟨r ++ b, by simp⟩

theorem startsWithL_of_nl {p : Line} (hnl : '\n' ∉ p) :
    ∀ {a b : Line}, startsWithL p (a ++ '\n' :: b) = true → startsWithL p a = true := by
  induction p with
  | nil => intro a b _; rfl
  | cons c cs ih =>
    intro a b h
    cases a with
    | nil =>
      simp only [List.nil_append, startsWithL, Bool.and_eq_true, beq_iff_eq] at h
      exact absurd (h.1 ▸ List.mem_cons_self c cs) hnl
    | cons d ds =>
      simp only [List.cons_append, startsWithL, Bool.and_eq_true] at h ⊢
      exact ⟨h.1, ih (fun hm => hnl (List.mem_cons_of_mem c hm)) h.2⟩

theorem isSub_cons {p : Line} (c : Char) {t : Line} (h : isSub p t = true) :
    isSub p (c :: t) = true := by
  simp only [isSub, Bool.or_eq_true]
  exact Or.inr h

theorem isSub_of_startsWithL {p s : Line} (h : startsWithL p s = true) :
    isSub p s = true := by
  cases s with
  | nil => exact h
  | cons c t =>
    simp only [isSub, Bool.or_eq_true]
    exact Or.inl h

theorem isSub_append_right {p b : Line} (a : Line) (h : isSub p b = true) :
    isSub p (a ++ b) = true := by
  induction a with
  | nil => exact h
  | cons c t ih => exact isSub_cons c ih

theorem isSub_append_left {p a : Line} (b : Line) (h : isSub p a = true) :
    isSub p (a ++ b) = true := by
  induction a with
  | nil =>
    cases p with
    | nil => exact isSub_of_startsWithL rfl
    | cons c cs => exact absurd h (by simp [isSub, startsWithL])
  | cons c t ih =>
    simp only [isSub, Bool.or_eq_true] at h
    rcases h with h | h
    · exact isSub_of_startsWithL (startsWithL_append b h)
    · exact isSub_cons c (ih h)

theorem isSub_nl {p : Line} (hnl : '\n' ∉ p) :
    ∀ {a b : Line}, isSub p (a ++ '\n' :: b) = true →
      isSub p a = true ∨ isSub p b = true := by
  intro a
  induction a with
  | nil =>
    intro b h
    simp only [List.nil_append, isSub, Bool.or_eq_true] at h
    rcases h with h | h
    · cases p with
      | nil => exact Or.inl rfl
      | cons c cs =>
        simp only [startsWithL, Bool.and_eq_true, beq_iff_eq] at h
        exact absurd (h.1 ▸ List.mem_cons_self c cs) hnl
    · exact Or.inr h
  | cons d ds ih =>
    intro b h
    simp only [List.cons_append, isSub, Bool.or_eq_true] at h
    rcases h with h | h
    · exact Or.inl (isSub_of_startsWithL
        (startsWithL_of_nl hnl (a := d :: ds) (by simpa using h)))
    · rcases ih h with h' | h'
      · exact Or.inl (isSub_cons d h')
      · exact Or.inr h'

theorem joinLines_isSub {p : Line} (hne : p ≠ []) (hnl : '\n' ∉ p) :
    ∀ ls : List Line, isSub p (joinLines ls) = ls.any (fun l => isSub p l)
  | [] => by
    cases p with
    | nil => exact absurd rfl hne
    | cons c cs => rfl
  | [l] => by simp [joinLines]
  | l :: l' :: ls => by
    have step := joinLines_isSub hne hnl (l' :: ls)
    show isSub p (l ++ '\n' :: joinLines (l' :: ls)) = _
    cases h : isSub p (l ++ '\n' :: joinLines (l' :: ls)) with
    | true =>
      rcases isSub_nl hnl h with h' | h'
      · simp [h']
      · rw [step] at h'
        simp [List.any_cons, h']
    | false =>
      cases hl : isSub p l with
      | true =>
        exact absurd (isSub_append_left ('\n' :: joinLines (l' :: ls)) hl) (by simp [h])
      | false =>
        cases hr : (l' :: ls).any (fun l => isSub p l) with
        | true =>
          rw [← step] at hr
          exact absurd (isSub_append_right l (isSub_cons '\n' hr)) (by simp [h])
        | false => simp [List.any_cons, hl, hr]

theorem implicit_none_perm {l1 l2 : List Line} (hp : l1.Perm l2) :
    (implicit_none l1).1 = (implicit_none l2).1 := by
  unfold implicit_none
  rw [any_perm _ hp]

theorem crown_perm {l1 l2 : List Line} (hp : l1.Perm l2) :
    (check_crown_copyright l1).1 = (check_crown_copyright l2).1 := by
  have hcc : isSub "Crown copyright".data (joinLines l1) =
      isSub "Crown copyright".data (joinLines l2) := by
    rw [joinLines_isSub (by decide) (by decide) l1,
      joinLines_isSub (by decide) (by decide) l2]
    exact any_perm _ hp
  have hco : isSub "COPYRIGHT".data (joinLines l1) =
      isSub "COPYRIGHT".data (joinLines l2) := by
    rw [joinLines_isSub (by decide) (by decide) l1,
      joinLines_isSub (by decide) (by decide) l2]
    exact any_perm _ hp
  simp only [check_crown_copyright, hcc, hco]

theorem code_owner_count (l : List Line) : (check_code_owner l).1 = 0 := by
  cases h : (isSub "Code Owner:".data (joinLines l) ||
      isSub "code owner".data (lowerL (joinLines l))) <;>
    simp [check_code_owner, h]

theorem mem_of_stripQuoteF {q : Char} :
    ∀ (fuel : Nat) (s : Line) {c : Char}, c ∈ stripQuoteF q fuel s → c ∈ s := by
  intro fuel
  induction fuel with
  | zero => intro s c hc; exact hc
  | succ fuel ih =>
    intro s c hc
    cases s with
    | nil => exact hc
    | cons a t =>
      simp only [stripQuoteF] at hc
      split at hc
      · split at hc
        · exact hc
        · rename_i heq
          have h1 : c ∈ t.dropWhile (fun d => !(d == q)) := by
            rw [heq]
            exact List.mem_cons_of_mem _ (ih _ hc)
          exact List.mem_cons_of_mem a ((List.dropWhile_sublist _).subset h1)
      · rcases List.mem_cons.mp hc with h | h
        · exact h ▸ List.mem_cons_self a t
        · exact List.mem_cons_of_mem a (ih _ h)

theorem mem_of_remove_quoted {s : Line} {c : Char} (hc : c ∈ remove_quoted s) :
    c ∈ s := by
  unfold remove_quoted at hc
  exact mem_of_stripQuoteF _ _ (mem_of_stripQuoteF _ _ hc)

theorem mem_of_stripComment {s : Line} {c : Char} (hc : c ∈ stripComment s) :
    c ∈ s := by
  simp only [stripComment, List.mem_append] at hc
  rcases hc with (hc | hc) | hc
  · rw [List.mem_reverse] at hc
    have h1 : c ∈ (if s.reverse.head? == some '\n' then s.reverse.tail else s.reverse) :=
      (List.dropWhile_sublist _).subset hc
    rw [← List.mem_reverse]
    split at h1
    · exact (List.tail_sublist _).subset h1
    · exact h1
  · simp only [truncAtBang] at hc
    have h0 : c ∈ ((if s.reverse.head? == some '\n' then s.reverse.tail
        else s.reverse).takeWhile (fun c => !(c == '\n'))) := by
      rw [← List.mem_reverse]
      exact (List.takeWhile_sublist _).subset hc
    have h1 : c ∈ (if s.reverse.head? == some '\n' then s.reverse.tail else s.reverse) :=
      (List.takeWhile_sublist _).subset h0
    rw [← List.mem_reverse]
    split at h1
    · exact (List.tail_sublist _).subset h1
    · exact h1
  · split at hc
    · rename_i hnl
      rcases List.mem_cons.mp hc with h | h
      · subst h
        rw [beq_iff_eq] at hnl
        rw [← List.mem_reverse]
        exact List.mem_of_mem_head? hnl
      · exact absurd h (List.not_mem_nil c)
    · exact absurd hc (List.not_mem_nil c)

theorem mem_of_cleanLine {l : Line} {c : Char} (hc : c ∈ cleanLine l) : c ∈ l :=
  mem_of_remove_quoted (mem_of_stripComment hc)

theorem readCapture_none {t : Line} (h : '(' ∉ t) : readCapture t = none := by
  unfold readCapture
  split
  · split
    · rename_i inner heq
      refine absurd ?_ h
      have h1 : '(' ∈ (t.drop 4).dropWhile isSpaceC := by
        rw [heq]
        exact List.mem_cons_self _ _
      exact (List.drop_sublist 4 t).subset ((List.dropWhile_sublist _).subset h1)
    · rfl
  · rfl

theorem scanBOptAux_readCapture_none :
    ∀ (prev : Option Char) {s : Line}, '(' ∉ s →
      scanBOptAux readCapture prev s = none := by
  intro prev s
  induction s generalizing prev with
  | nil =>
    intro h
    simp only [scanBOptAux]
    split
    · exact readCapture_none h
    · rfl
  | cons c t ih =>
    intro h
    have hc : readCapture (c :: t) = none := readCapture_none h
    have ht : '(' ∉ t := fun hm => h (List.mem_cons_of_mem _ hm)
    simp only [scanBOptAux]
    cases hnw : noWordBefore prev
    · simp only [Bool.false_eq_true, if_neg]
      exact ih (some c) ht
    · simp only [if_pos rfl, hc]
      exact ih (some c) ht

/-! ### Claim theorems -/

/-- C1: the `capitalised_keywords` rule flags `do i = 1, 10` with failure
count 1 and key `lowercase keyword: do`, but it also returns 1 (not the
claimed 0) on `DO I = 1, 10`: the inner search runs over the lowercased
line, so the original case is never consulted, contradicting the code's
own comment `Check if original was lowercase`. -/
theorem c1_capitalised_keywords_case_bug :
    (capitalised_keywords [("do i = 1, 10").data]).1 = 1 ∧
    (capitalised_keywords [("do i = 1, 10").data]).2 =
      [("lowercase keyword: do").data] ∧
    (capitalised_keywords [("DO I = 1, 10").data]).1 = 1 := by
  decide

/-- C2 (amended): on the empty list of lines every rule returns 0 except
the presence rules `implicit_none` and `check_crown_copyright`, which
return exactly 1; in particular `c_final_newline` returns 0 on the empty
list, not the claimed 1. -/
theorem c2_empty_unit_counts (id : RuleId) :
    ruleCount id [] =
      if id = RuleId.implicit_none ∨ id = RuleId.check_crown_copyright then 1 else 0 := by
  cases id <;> rfl

/-- C2 counterexample: `c_final_newline` returns 0 on the empty list,
refuting the claim that it returns exactly 1 there. -/
theorem c2_counterexample :
    ruleCount RuleId.c_final_newline [] = 0 ∧ ruleCount RuleId.c_final_newline [] ≠ 1 := by
  decide

/-- C3 (amended): every rule other than `c_protect_omp_pragma` and
`c_final_newline` returns the same failure count on any permutation of
its input lines. -/
theorem c3_perm_invariant (id : RuleId) (h1 : id ≠ RuleId.c_protect_omp_pragma)
    (h2 : id ≠ RuleId.c_final_newline) {l1 l2 : List Line} (hp : l1.Perm l2) :
    ruleCount id l1 = ruleCount id l2 := by
  cases id
  case c_protect_omp_pragma => exact absurd rfl h1
  case c_final_newline => exact absurd rfl h2
  case implicit_none => exact implicit_none_perm hp
  case check_crown_copyright => exact crown_perm hp
  case check_code_owner =>
    show (check_code_owner l1).1 = (check_code_owner l2).1
    rw [code_owner_count, code_owner_count]
  case retire_if_def => rfl
  all_goals exact perLineRule_perm _ hp

theorem c3_perm_invariant_witness :
    ruleCount RuleId.tab_detection ["A".data, "B".data] =
      ruleCount RuleId.tab_detection ["B".data, "A".data] :=
  c3_perm_invariant RuleId.tab_detection (by decide) (by decide)
    (List.Perm.swap ("B".data) ("A".data) [])

/-- C3 counterexample: `c_final_newline` is not `c_protect_omp_pragma`,
yet permuting its input changes its failure count, because only the last
line is inspected. -/
theorem c3_counterexample :
    List.Perm ["a\n".data, "b".data] ["b".data, "a\n".data] ∧
    RuleId.c_final_newline ≠ RuleId.c_protect_omp_pragma ∧
    ruleCount RuleId.c_final_newline ["a\n".data, "b".data] ≠
      ruleCount RuleId.c_final_newline ["b".data, "a\n".data] :=
  ⟨List.Perm.swap ("b".data) ("a\n".data) [], by decide, by decide⟩

/-- C4: on `["#pragma omp parallel", "#if defined(_OPENMP)",
"#pragma omp parallel", "#endif"]` the stateful guard rule returns
exactly 1: the first pragma is seen with the flag still false, the second
inside the guard. -/
theorem c4_omp_guard_scenario :
    (c_protect_omp_pragma ((["#pragma omp parallel", "#if defined(_OPENMP)",
      "#pragma omp parallel", "#endif"]).map String.data)).1 = 1 := by
  decide

/-- C5: on `["GO TO 9999", "GOTO 200"]` the GO TO rule returns exactly 1
and records only the non-9999 target. -/
theorem c5_go_to_scenario :
    (go_to_other_than_9999 ((["GO TO 9999", "GOTO 200"]).map String.data)).1 = 1 ∧
    (go_to_other_than_9999 ((["GO TO 9999", "GOTO 200"]).map String.data)).2 =
      [("GO TO 200").data] := by
  decide

/-- C6: stripping quotes and then the `!` comment on
`WRITE(*,*) "warn!"  ! comment` yields exactly `WRITE(*,*)` followed by
three spaces: the quoted text (with its `!`) is removed first, then the
comment. -/
theorem c6_normalization_roundtrip :
    stripComment (remove_quoted ("WRITE(*,*) \"warn!\"  ! comment").data) =
      ("WRITE(*,*)   ").data := by
  decide

/-- C7: calling the same rule twice in a row on the same facade without a
reset returns the same failure count both times, and the store after the
second call has the same contents (dict equality is key-by-key) as after
the first, since re-recording the same keys is last-write-wins. -/
theorem c7_double_call (id : RuleId) (lines : List Line) (s0 : Store) :
    (callRule id lines ((callRule id lines s0).2)).1 = (callRule id lines s0).1 ∧
    ∀ q, lookupS ((callRule id lines ((callRule id lines s0).2)).2) q =
      lookupS ((callRule id lines s0).2) q := by
  refine ⟨rfl, fun q => ?_⟩
  show lookupS (applyRecs (runRule id lines).2 (applyRecs (runRule id lines).2 s0)) q =
    lookupS (applyRecs (runRule id lines).2 s0) q
  simp only [lookup_applyRecs]
  by_cases h : q ∈ (runRule id lines).2 <;> simp [h]

/-- C8: a line with no parenthesized argument list at all (no `(` in the
line) contributes 0 failures to `read_unit_args` and records nothing; and
the per-line count is 1 exactly when the regex captures a first argument
that does not start with `UNIT=` after stripping and uppercasing. -/
theorem c8_read_unit_args (line : Line) :
    ('(' ∉ line → (read_unit_args [line]).1 = 0 ∧ (read_unit_args [line]).2 = []) ∧
    ((read_unit_args [line]).1 = 1 ↔
      ∃ arg, scanBOpt readCapture (cleanLine line) = some arg ∧
        startsWithL "UNIT=".data (upperL (stripWs arg)) = false) := by
  constructor
  · intro h
    have hclean : '(' ∉ cleanLine line := fun hm => h (mem_of_cleanLine hm)
    have hs : scanBOpt readCapture (cleanLine line) = none :=
      scanBOptAux_readCapture_none none hclean
    constructor <;> simp [read_unit_args, perLineRule, hs]
  · cases hs : scanBOpt readCapture (cleanLine line) with
    | none => simp [read_unit_args, perLineRule, hs]
    | some a =>
      cases hu : startsWithL "UNIT=".data (upperL (stripWs a)) with
      | true => simp [read_unit_args, perLineRule, hs, hu]
      | false => simp [read_unit_args, perLineRule, hs, hu]

theorem c8_read_unit_args_witness :
    '(' ∉ ("READ X").data ∧
    (read_unit_args [("READ X").data]).1 = 0 ∧
    (read_unit_args [("READ X").data]).2 = [] :=
  ⟨by decide, (c8_read_unit_args (("READ X").data)).1 (by decide)⟩

/-- C10: every `#endif` clears the guard flag regardless of nesting, so
with a nested conditional inside the `_OPENMP` guard the pragma after the
inner `#endif` is counted as unprotected. -/
theorem c10_endif_clears_guard :
    (c_protect_omp_pragma ((["#if defined(_OPENMP)", "#if FOO", "#endif",
      "#pragma omp parallel", "#endif"]).map String.data)).1 = 1 := by
  decide

end UMDP3
